import Mathlib

/-
Verification development for the plant-catalog repository
(src/streamlit_app.py and src/excel_transform.py).

The SQLite-backed store is embedded shallowly: the `plants` table becomes a
list of `Plant` records together with the AUTOINCREMENT sequence counter, and
each database helper of streamlit_app.py becomes a pure function on that
state.  The `created_at` column (a DB-assigned timestamp that no verified
claim reads) is not carried in the model.  SQL semantics used by the code
(LIKE pattern matching with ASCII-only case folding, NULL-rejecting WHERE
comparisons, the BINARY text collation, DATE() on ISO date text) are embedded
explicitly below.
-/

/-- ASCII-only lower-casing, as performed by the case folding of the SQLite
LIKE operator (only the letters A-Z fold; every other character, including
all non-ASCII letters, is left unchanged). -/
def asciiLower (c : Char) : Char :=
  if 'A' ≤ c ∧ c ≤ 'Z' then Char.ofNat (c.toNat + 32) else c

/-- Byte-order comparison of character lists; on UTF-8 text this is exactly
the order of the SQLite BINARY collation used by ORDER BY and BETWEEN. -/
def charsLe : List Char → List Char → Bool
  | [], _ => true
  | _ :: _, [] => false
  | a :: xs, b :: ys =>
    if a < b then true
    else if a = b then charsLe xs ys
    else false

def isDigit (c : Char) : Bool := '0' ≤ c ∧ c ≤ '9'

/-- SQLite LIKE matching (pattern, then subject), with explicit fuel so the
definition is structurally recursive: `%` matches any sequence, `_` matches
one character, and literal characters compare under ASCII-only case folding.
Every recursive call shrinks `pattern.length + subject.length`, so the fuel
used by `likeMatch` below is always sufficient. -/
def likeAux : Nat → List Char → List Char → Bool
  | _, [], s => s.isEmpty
  | 0, _ :: _, _ => false
  | n + 1, c :: ps, s =>
    if c = '%' then
      likeAux n ps s ||
        (match s with
         | [] => false
         | _ :: tl => likeAux n (c :: ps) tl)
    else
      match s with
      | [] => false
      | d :: tl =>
        if c = '_' then likeAux n ps tl
        else if asciiLower c = asciiLower d then likeAux n ps tl
        else false

def likeMatch (p s : List Char) : Bool :=
  likeAux (p.length + s.length + 1) p s

/-- The pattern built in search_plants: the term wrapped as %term%
(src/streamlit_app.py line 93). -/
def searchPattern (term : String) : List Char :=
  '%' :: (term.data ++ ['%'])

/-- A NULL column value never satisfies LIKE (the WHERE predicate is NULL,
which SQLite does not treat as true). -/
def optLike (pat : List Char) : Option String → Bool
  | none => false
  | some s => likeMatch pat s.data

/-- True when the term contains no LIKE wildcard. -/
def noWildChar (c : Char) : Bool :=
  if c = '%' then false else if c = '_' then false else true

def noWildL (l : List Char) : Bool := l.all noWildChar

/-- ASCII-case-insensitive "starts with". -/
def ciStarts : List Char → List Char → Bool
  | [], _ => true
  | _ :: _, [] => false
  | c :: t, d :: s =>
    if asciiLower c = asciiLower d then ciStarts t s else false

/-- ASCII-case-insensitive substring containment. -/
def ciSub (t : List Char) : List Char → Bool
  | [] => t.isEmpty
  | d :: s => ciStarts t (d :: s) || ciSub t s

/-- ASCII-case-insensitive containment of a term in a nullable column. -/
def ciContainsOpt (term : String) : Option String → Bool
  | none => false
  | some s => ciSub term.data s.data

/-- Case folding as the specification words it: genuinely case-insensitive
matching "including for non-Latin-script names"; modelled for ASCII and the
Cyrillic letters the catalog uses. -/
def specLower (c : Char) : Char :=
  if 'A' ≤ c ∧ c ≤ 'Z' then Char.ofNat (c.toNat + 32)
  else if 'А' ≤ c ∧ c ≤ 'Я' then Char.ofNat (c.toNat + 32)
  else if c = 'Ё' then 'ё'
  else c

def specStarts : List Char → List Char → Bool
  | [], _ => true
  | _ :: _, [] => false
  | a :: t, b :: s => if a = b then specStarts t s else false

def specSubList (t : List Char) : List Char → Bool
  | [] => t.isEmpty
  | b :: s => specStarts t (b :: s) || specSubList t s

/-- Case-insensitive substring containment as the specification describes
Search: written from the spec sentence, to be compared with the LIKE-based
behaviour of the code. -/
def specCiContains (hay term : String) : Bool :=
  specSubList (term.data.map specLower) (hay.data.map specLower)

/-- One row of the plants table (src/streamlit_app.py lines 24-41), minus the
created_at timestamp, which no verified claim reads. -/
structure Plant where
  id : Nat
  group_name : Option String
  russian_name : Option String
  russian_name_url : Option String
  latin_name : Option String
  latin_name_url : Option String
  acquisition_date : Option String
  acquisition_place : Option String
  supplier : Option String
  cost : Option Rat
  location : Option String
  pot : Option String
  condition : Option String
  deriving Repr, DecidableEq

/-- The store: table rows plus the AUTOINCREMENT sequence (never reset by
DELETE, so ids are never reused). -/
structure DB where
  rows : List Plant
  seq : Nat
  deriving Repr, DecidableEq

/-- INSERT of one record: the new row gets the next sequence id. -/
def dbInsert (db : DB) (p : Plant) : DB :=
  { rows := db.rows ++ [{ p with id := db.seq }], seq := db.seq + 1 }

/-- ORDER BY russian_name key order: SQLite sorts NULLs first, then text in
BINARY (byte) order. -/
def nameLe : Option String → Option String → Bool
  | none, _ => true
  | some _, none => false
  | some a, some b => charsLe a.data b.data

def insertByName (p : Plant) : List Plant → List Plant
  | [] => [p]
  | q :: qs =>
    if nameLe p.russian_name q.russian_name then p :: q :: qs
    else q :: insertByName p qs

def sortByRussian : List Plant → List Plant
  | [] => []
  | p :: ps => insertByName p (sortByRussian ps)

/-- get_all_plants (src/streamlit_app.py lines 98-102):
SELECT * FROM plants ORDER BY russian_name. -/
def get_all_plants (db : DB) : List Plant :=
  sortByRussian db.rows

/-- search_plants (src/streamlit_app.py lines 84-95): rows whose
russian_name or latin_name matches LIKE %term%, ordered by russian_name. -/
def search_plants (db : DB) (term : String) : List Plant :=
  sortByRussian (db.rows.filter (fun p =>
    optLike (searchPattern term) p.russian_name ||
    optLike (searchPattern term) p.latin_name))

/-- A field-update mapping for update_plant: each selector is present in the
mapping (outer some) or absent; a present selector carries the new value,
which may itself be NULL.  Only valid column names are representable here;
id and created_at are not updatable through the edit form.  -/
structure UpdateData where
  group_name : Option (Option String) := none
  russian_name : Option (Option String) := none
  latin_name : Option (Option String) := none
  acquisition_date : Option (Option String) := none
  acquisition_place : Option (Option String) := none
  supplier : Option (Option String) := none
  cost : Option (Option Rat) := none
  location : Option (Option String) := none
  pot : Option (Option String) := none
  condition : Option (Option String) := none
  deriving Repr, DecidableEq

def UpdateData.nonEmpty (u : UpdateData) : Bool :=
  u.group_name.isSome || u.russian_name.isSome || u.latin_name.isSome ||
  u.acquisition_date.isSome || u.acquisition_place.isSome ||
  u.supplier.isSome || u.cost.isSome || u.location.isSome ||
  u.pot.isSome || u.condition.isSome

/-- SET clause application: present fields are replaced, absent fields kept. -/
def applyUpdate (u : UpdateData) (p : Plant) : Plant :=
  { p with
    group_name := u.group_name.getD p.group_name
    russian_name := u.russian_name.getD p.russian_name
    latin_name := u.latin_name.getD p.latin_name
    acquisition_date := u.acquisition_date.getD p.acquisition_date
    acquisition_place := u.acquisition_place.getD p.acquisition_place
    supplier := u.supplier.getD p.supplier
    cost := u.cost.getD p.cost
    location := u.location.getD p.location
    pot := u.pot.getD p.pot
    condition := u.condition.getD p.condition }

/-- update_plant (src/streamlit_app.py lines 124-145): UPDATE plants SET ...
WHERE id == ?, returning the success flag.  The function returns False only
when execute raises; with a valid non-empty mapping the UPDATE succeeds and
True is returned no matter how many rows the WHERE clause matched.  An empty
mapping makes the SET clause empty, the SQL raises, and False is returned
with the store untouched. -/
def update_plant (db : DB) (id : Nat) (u : UpdateData) : Bool × DB :=
  if u.nonEmpty then
    (true, { db with rows := db.rows.map (fun p =>
      if p.id = id then applyUpdate u p else p) })
  else
    (false, db)

/-- delete_plant (src/streamlit_app.py lines 148-170): first SELECT the row
by id; only when it exists run DELETE and return True, otherwise return
False with the store untouched. -/
def delete_plant (db : DB) (id : Nat) : Bool × DB :=
  if db.rows.any (fun p => decide (p.id = id)) then
    (true, { db with rows := db.rows.filter (fun p => ! decide (p.id = id)) })
  else
    (false, db)

/-- The ten-value tuple handed to add_plant by the add form. -/
structure PlantData where
  group_name : Option String
  russian_name : Option String
  latin_name : Option String
  acquisition_date : Option String
  acquisition_place : Option String
  supplier : Option String
  cost : Option Rat
  location : Option String
  pot : Option String
  condition : Option String
  deriving Repr, DecidableEq

/-- add_plant (src/streamlit_app.py lines 68-81): INSERT naming only the ten
non-URL data columns, so russian_name_url and latin_name_url take the column
default NULL. -/
def plantOfData (d : PlantData) : Plant :=
  { id := 0
    group_name := d.group_name
    russian_name := d.russian_name
    russian_name_url := none
    latin_name := d.latin_name
    latin_name_url := none
    acquisition_date := d.acquisition_date
    acquisition_place := d.acquisition_place
    supplier := d.supplier
    cost := d.cost
    location := d.location
    pot := d.pot
    condition := d.condition }

def add_plant (db : DB) (d : PlantData) : DB :=
  dbInsert db (plantOfData d)

/-- The widget values of the add form (src/streamlit_app.py lines 449-469):
text widgets yield strings (possibly empty), the date widget an optional
formatted date, the cost widget a non-negative number. -/
structure AddFormInput where
  group_name : String
  russian_name : String
  latin_name : String
  acquisition_date : Option String
  acquisition_place : String
  supplier : String
  cost : Rat
  location : String
  pot : String
  condition : String
  deriving Repr, DecidableEq

/-- The add-form submit path (src/streamlit_app.py lines 476-494): rejects an
empty russian_name, otherwise builds the plant_data tuple exactly as entered;
only cost is coerced (nonpositive becomes NULL) and the other text fields are
passed through verbatim. -/
def addFormSubmit (db : DB) (i : AddFormInput) : Option DB :=
  if i.russian_name = "" then none
  else some (add_plant db
    { group_name := some i.group_name
      russian_name := some i.russian_name
      latin_name := some i.latin_name
      acquisition_date := i.acquisition_date
      acquisition_place := some i.acquisition_place
      supplier := some i.supplier
      cost := if 0 < i.cost then some i.cost else none
      location := some i.location
      pot := some i.pot
      condition := some i.condition })

/-- The widget values of the edit form (src/streamlit_app.py lines 291-311):
every field is a text widget except the non-negative cost number. -/
structure EditFormInput where
  group_name : String
  russian_name : String
  latin_name : String
  acquisition_date : String
  acquisition_place : String
  supplier : String
  cost : Rat
  location : String
  pot : String
  condition : String
  deriving Repr, DecidableEq

def emptyToNull (s : String) : Option String :=
  if s = "" then none else some s

/-- The updated_data mapping built by the edit form (src/streamlit_app.py
lines 324-340): all ten fields are present; cost is NULL unless positive and
the final loop turns every empty string into NULL. -/
def editFormUpdateData (i : EditFormInput) : UpdateData :=
  { group_name := some (emptyToNull i.group_name)
    russian_name := some (emptyToNull i.russian_name)
    latin_name := some (emptyToNull i.latin_name)
    acquisition_date := some (emptyToNull i.acquisition_date)
    acquisition_place := some (emptyToNull i.acquisition_place)
    supplier := some (emptyToNull i.supplier)
    cost := some (if 0 < i.cost then some i.cost else none)
    location := some (emptyToNull i.location)
    pot := some (emptyToNull i.pot)
    condition := some (emptyToNull i.condition) }

def noEmptyVal : Option (Option String) → Bool
  | some (some s) => ! decide (s = "")
  | _ => true

/-- Checks that a field mapping carries no empty-string value. -/
def UpdateData.noEmptyStrings (u : UpdateData) : Bool :=
  noEmptyVal u.group_name && noEmptyVal u.russian_name &&
  noEmptyVal u.latin_name && noEmptyVal u.acquisition_date &&
  noEmptyVal u.acquisition_place && noEmptyVal u.supplier &&
  noEmptyVal u.location && noEmptyVal u.pot && noEmptyVal u.condition

/-- Python truthiness of an Optional[str]: None and the empty string are
falsy. -/
def optFalsy : Option String → Bool
  | none => true
  | some s => decide (s = "")

def optTruthy (o : Option String) : Bool := ! optFalsy o

/-- The url group of the markdown pattern: the lazy group stops at the first
closing parenthesis; failure when the text ends, or at a newline, which the
dot of the pattern cannot cross. -/
def mdUrl : List Char → Option (List Char)
  | [] => none
  | c :: rest =>
    if c = ')' then some []
    else if c = Char.ofNat 10 then none
    else (mdUrl rest).map (fun u => c :: u)

/-- After an opening bracket, the lazy label group: at each position first
try to close with a bracket-parenthesis pair followed by a successful url
group; on failure the lazy group extends over one more character (newlines
stop it).  This is exactly the backtracking behaviour of the Python pattern
on the first occurrence. -/
def mdAfterBracket : List Char → Option (List Char × List Char)
  | [] => none
  | c :: rest =>
    if c = ']' then
      match rest with
      | d :: rest2 =>
        if d = '(' then
          match mdUrl rest2 with
          | some u => some ([], u)
          | none => (mdAfterBracket (d :: rest2)).map (fun lu => (c :: lu.1, lu.2))
        else (mdAfterBracket (d :: rest2)).map (fun lu => (c :: lu.1, lu.2))
      | [] => none
    else if c = Char.ofNat 10 then none
    else (mdAfterBracket rest).map (fun lu => (c :: lu.1, lu.2))

/-- re.search of the pattern over the whole text: attempts start positions
left to right, so the first (leftmost) occurrence wins. -/
def mdSearch : List Char → Option (List Char × List Char)
  | [] => none
  | c :: rest =>
    if c = '[' then
      match mdAfterBracket rest with
      | some lu => some lu
      | none => mdSearch rest
    else mdSearch rest

/-- The fixed-column pathway per linkable cell (src/excel_transform.py lines
22-51): url is the native hyperlink target when a hyperlink is attached;
when that url is falsy and the truthy cell text contains both brackets, the
first markdown occurrence overrides text and url; otherwise both pass
through. -/
def resolveLinkable (value hyperlink : Option String) : Option String × Option String :=
  match value with
  | none => (none, hyperlink)
  | some s =>
    if optFalsy hyperlink && (! decide (s = "")) &&
        decide ('[' ∈ s.data) && decide (']' ∈ s.data) then
      match mdSearch s.data with
      | some lu => (some (String.mk lu.1), some (String.mk lu.2))
      | none => (some s, hyperlink)
    else (some s, hyperlink)

/-- The header-driven import pathway per cell
(src/streamlit_app.py lines 185-207, extract_hyperlinks_from_excel): the text
column always receives the literal cell value; the companion url column is
only written when a native hyperlink with a truthy target is attached.  No
markdown parsing happens on this pathway. -/
def headerResolve (value hyperlink : Option String) : Option String × Option String :=
  (value, if optTruthy hyperlink then hyperlink else none)

/-- One imported row after hyperlink extraction: column name to nullable cell
text (NaN cells already turned into NULL). -/
def Row : Type := List (String × Option String)

def rowLookup (row : Row) (k : String) : Option String :=
  match List.find? (fun kv => decide (kv.1 = k)) row with
  | some kv => kv.2
  | none => none

/-- The fixed column whitelist of the import loop
(src/streamlit_app.py lines 791-796). -/
def whitelist : List String :=
  ["group_name", "russian_name", "russian_name_url",
   "latin_name", "latin_name_url", "acquisition_date",
   "acquisition_place", "supplier", "cost", "location",
   "pot", "condition"]

/-- The column list of one INSERT: the row's keys restricted to the
whitelist, in order. -/
def rowColumns (row : Row) : List String :=
  (row.map Prod.fst).filter (fun c => whitelist.contains c)

/-- The SQL text built for one row (src/streamlit_app.py lines 798-802). -/
def insertSql (row : Row) : String :=
  "INSERT INTO plants (" ++ String.intercalate ", " (rowColumns row) ++
    ") VALUES (" ++
    String.intercalate ", " ((rowColumns row).map (fun _ => "?")) ++ ")"

def digitsToNat (l : List Char) : Nat :=
  l.foldl (fun a c => a * 10 + (c.toNat - 48)) 0

def splitDot : List Char → List Char × Option (List Char)
  | [] => ([], none)
  | c :: rest =>
    if c = '.' then ([], some rest)
    else
      let ab := splitDot rest
      (c :: ab.1, ab.2)

/-- Modelled narrowly: the SQLite REAL-affinity conversion applied to an
imported cost cell.  Only non-negative decimal text of the shape
digits or digits.digits is modelled; no verified claim reads an imported
record's cost. -/
def realAffinity : Option String → Option Rat
  | none => none
  | some s =>
    let ab := splitDot s.data
    if (! ab.1.isEmpty) && ab.1.all isDigit &&
        (match ab.2 with
         | none => true
         | some f => f.all isDigit) then
      some ((digitsToNat ab.1 : Rat) +
        (match ab.2 with
         | none => 0
         | some f => (digitsToNat f : Rat) / ((10 : Rat) ^ f.length)))
    else none

/-- The record inserted for one row: every whitelisted column present in the
row supplies its value (NULL when the cell was empty); columns missing from
the row are omitted from the INSERT and default to NULL — both cases land on
none here. -/
def rowPlant (row : Row) : Plant :=
  { id := 0
    group_name := rowLookup row "group_name"
    russian_name := rowLookup row "russian_name"
    russian_name_url := rowLookup row "russian_name_url"
    latin_name := rowLookup row "latin_name"
    latin_name_url := rowLookup row "latin_name_url"
    acquisition_date := rowLookup row "acquisition_date"
    acquisition_place := rowLookup row "acquisition_place"
    supplier := rowLookup row "supplier"
    cost := realAffinity (rowLookup row "cost")
    location := rowLookup row "location"
    pot := rowLookup row "pot"
    condition := rowLookup row "condition" }

/-- The duplicate probe of the import loop (src/streamlit_app.py lines
778-785): SELECT id FROM plants WHERE russian_name = ?; a NULL name never
matches. -/
def dedupHit (db : DB) : Option String → Bool
  | none => false
  | some n => db.rows.any (fun p => decide (p.russian_name = some n))

/-- The row loop of the import (src/streamlit_app.py lines 775-807): the
duplicate probe runs against the store as it stands when the row is
processed, so rows inserted earlier in the same batch are visible; a hit
skips the row, otherwise the row is inserted and counted. -/
def bulkRows (dedup : Bool) : DB → List Row → DB × Nat × Nat
  | db, [] => (db, 0, 0)
  | db, row :: rest =>
    if dedup && dedupHit db (rowLookup row "russian_name") then
      let r := bulkRows dedup db rest
      (r.1, r.2.1, r.2.2 + 1)
    else
      let r := bulkRows dedup (dbInsert db (rowPlant row)) rest
      (r.1, r.2.1 + 1, r.2.2)

/-- The uploaded data after hyperlink extraction: the resulting column list
and the data rows. -/
structure ImportData where
  cols : List String
  rows : List Row

inductive ImportMode where
  | append
  | replaceAll
  deriving Repr, DecidableEq

/-- missing_columns (src/streamlit_app.py lines 755-756). -/
def missingColumns (data : ImportData) : List String :=
  ["russian_name"].filter (fun c => ! data.cols.contains c)

/-- Outcome of a bulk import: the store afterwards, and either the named
missing-columns error or the imported and skipped counts. -/
structure BulkOutcome where
  db : DB
  report : Except (List String) (Nat × Nat)

/-- The import pathway (src/streamlit_app.py lines 750-813): the required
column check happens before anything touches the store, so on a missing
column nothing is written and nothing is deleted even in replace mode; in
replace mode all rows are deleted first (the sequence is not reset), then
the row loop runs. -/
def bulk_import (db : DB) (data : ImportData) (mode : ImportMode)
    (dedup : Bool) : BulkOutcome :=
  let missing := missingColumns data
  if missing.isEmpty then
    let db0 := match mode with
      | ImportMode.replaceAll => { db with rows := [] }
      | ImportMode.append => db
    let r := bulkRows dedup db0 data.rows
    { db := r.1, report := Except.ok (r.2.1, r.2.2) }
  else
    { db := db, report := Except.error missing }

/-- The filter form values (src/streamlit_app.py lines 507-553): the group
and supplier select boxes (the sentinel option "Все" meaning no filter), the
optional already-formatted date range, the condition keyword, and the two
non-negative price bounds. -/
structure FilterInput where
  selectedGroup : String
  dateRange : Option (String × String)
  selectedSupplier : String
  conditionFilter : String
  minPrice : Rat
  maxPrice : Rat

def groupActive (f : FilterInput) : Bool :=
  (! decide (f.selectedGroup = "")) && (! decide (f.selectedGroup = "Все"))

def dateActive (f : FilterInput) : Bool := f.dateRange.isSome

def supplierActive (f : FilterInput) : Bool :=
  (! decide (f.selectedSupplier = "")) && (! decide (f.selectedSupplier = "Все"))

def condActive (f : FilterInput) : Bool := ! decide (f.conditionFilter = "")

def minActive (f : FilterInput) : Bool := decide (0 < f.minPrice)

def maxActive (f : FilterInput) : Bool := decide (0 < f.maxPrice)

/-- The SQL text assembled by the filter tab (src/streamlit_app.py lines
563-590): a fixed base and one fixed clause per active filter; every value
goes to the parameter list, never into the text. -/
def filterSql (f : FilterInput) : String :=
  "SELECT * FROM plants WHERE 1=1" ++
  (if groupActive f then " AND group_name = ?" else "") ++
  (if dateActive f then " AND DATE(acquisition_date) BETWEEN ? AND ?" else "") ++
  (if supplierActive f then " AND supplier = ?" else "") ++
  (if condActive f then " AND condition LIKE ?" else "") ++
  (if minActive f then " AND cost >= ?" else "") ++
  (if maxActive f then " AND cost <= ?" else "")

inductive Param where
  | s (v : String)
  | r (v : Rat)
  deriving Repr, DecidableEq

/-- The bound-parameter list assembled alongside the SQL text. -/
def filterParams (f : FilterInput) : List Param :=
  (if groupActive f then [Param.s f.selectedGroup] else []) ++
  (match f.dateRange with
   | some ab => [Param.s ab.1, Param.s ab.2]
   | none => []) ++
  (if supplierActive f then [Param.s f.selectedSupplier] else []) ++
  (if condActive f then [Param.s ("%" ++ f.conditionFilter ++ "%")] else []) ++
  (if minActive f then [Param.r f.minPrice] else []) ++
  (if maxActive f then [Param.r f.maxPrice] else [])

/-- Modelled from the SQLite DATE() built-in as the store uses it: date-only
ISO text YYYY-MM-DD (month 01-12, day 01-31) is returned unchanged, anything
else yields NULL.  Datetime suffixes and numeric date forms do not occur in
the store, which always persists dates through strftime of that shape. -/
def sqliteDate : Option String → Option String
  | none => none
  | some s =>
    match s.data with
    | [y1, y2, y3, y4, h1, m1, m2, h2, d1, d2] =>
      if h1 = '-' && h2 = '-' &&
          [y1, y2, y3, y4, m1, m2, d1, d2].all isDigit &&
          charsLe ['0', '1'] [m1, m2] && charsLe [m1, m2] ['1', '2'] &&
          charsLe ['0', '1'] [d1, d2] && charsLe [d1, d2] ['3', '1'] then
        some s
      else none
    | _ => none

/-- Row evaluation of the assembled WHERE clause: the conjunction of the
active clauses, each false on a NULL column value exactly as in SQL. -/
def rowPasses (f : FilterInput) (p : Plant) : Bool :=
  ((! groupActive f) || decide (p.group_name = some f.selectedGroup)) &&
  (match f.dateRange with
   | none => true
   | some ab =>
     match sqliteDate p.acquisition_date with
     | none => false
     | some d => charsLe ab.1.data d.data && charsLe d.data ab.2.data) &&
  ((! supplierActive f) || decide (p.supplier = some f.selectedSupplier)) &&
  ((! condActive f) || optLike (searchPattern f.conditionFilter) p.condition) &&
  ((! minActive f) ||
    (match p.cost with
     | none => false
     | some c => decide (f.minPrice ≤ c))) &&
  ((! maxActive f) ||
    (match p.cost with
     | none => false
     | some c => decide (c ≤ f.maxPrice)))

/-- The filter tab execution (src/streamlit_app.py lines 592-597): with at
least one bound parameter the assembled query runs, otherwise the plain
SELECT over the whole table. -/
def filter_query (db : DB) (f : FilterInput) : List Plant :=
  if 0 < (filterParams f).length then db.rows.filter (rowPasses f)
  else db.rows

/-- Concrete store contents used by the closed theorems below. -/
def plantRoza : Plant :=
  { id := 1
    group_name := none
    russian_name := some "Роза"
    russian_name_url := none
    latin_name := none
    latin_name_url := none
    acquisition_date := none
    acquisition_place := none
    supplier := none
    cost := none
    location := none
    pot := none
    condition := none }

def dbRoza : DB := { rows := [plantRoza], seq := 2 }

def plantAgava : Plant := { plantRoza with russian_name := some "Агава" }

def dbAgava : DB := { rows := [plantAgava], seq := 2 }

def plantNoName : Plant := { plantRoza with russian_name := none }

def dbNoName : DB := { rows := [plantNoName], seq := 2 }

def updGroupOnly : UpdateData := { group_name := some (some "Кактусы") }

def addInputEmptyLatin : AddFormInput :=
  { group_name := "Суккуленты"
    russian_name := "Роза"
    latin_name := ""
    acquisition_date := none
    acquisition_place := ""
    supplier := ""
    cost := 0
    location := ""
    pot := ""
    condition := "" }

def emptyDB : DB := { rows := [], seq := 1 }

def rowRoza : Row := [("russian_name", some "Роза")]

def importRozaTwice : ImportData :=
  { cols := ["russian_name"], rows := [rowRoza, rowRoza] }

def importNoRussian : ImportData :=
  { cols := ["latin_name"], rows := [[("latin_name", some "Rosa")]] }

def filterInactive : FilterInput :=
  { selectedGroup := "Все"
    dateRange := none
    selectedSupplier := "Все"
    conditionFilter := ""
    minPrice := 0
    maxPrice := 0 }

def filterInactive2 : FilterInput :=
  { selectedGroup := ""
    dateRange := none
    selectedSupplier := ""
    conditionFilter := ""
    minPrice := 0
    maxPrice := 0 }

def editInput1 : EditFormInput :=
  { group_name := ""
    russian_name := "Роза"
    latin_name := ""
    acquisition_date := ""
    acquisition_place := ""
    supplier := ""
    cost := 0
    location := ""
    pot := ""
    condition := "" }

def addResult1 : DB :=
  { rows := [{ id := 1
               group_name := some "Суккуленты"
               russian_name := some "Роза"
               russian_name_url := none
               latin_name := some ""
               latin_name_url := none
               acquisition_date := none
               acquisition_place := some ""
               supplier := some ""
               cost := none
               location := some ""
               pot := some ""
               condition := some "" }]
    seq := 2 }

/-- Specification-side restatement of the dedup rule of BulkImport: a row is
skipped exactly when its russian_name is among the names already present at
that moment, and the name of every row actually inserted joins that set, so
earlier rows of the same batch count for later ones; rows without a name are
always inserted.  Returns (imported, skipped). -/
def dedupCounts : List String → List Row → Nat × Nat
  | _, [] => (0, 0)
  | seen, row :: rest =>
    match rowLookup row "russian_name" with
    | none =>
      let r := dedupCounts seen rest
      (r.1 + 1, r.2)
    | some n =>
      if seen.any (fun m => decide (m = n)) then
        let r := dedupCounts seen rest
        (r.1, r.2 + 1)
      else
        let r := dedupCounts (seen ++ [n]) rest
        (r.1 + 1, r.2)

theorem mem_insertByName (p x : Plant) (l : List Plant) :
    x ∈ insertByName p l ↔ x = p ∨ x ∈ l := by
  induction l with
  | nil => simp [insertByName]
  | cons q qs ih =>
    by_cases h : nameLe p.russian_name q.russian_name = true
    · simp [insertByName, h]
    · simp only [insertByName, if_neg h, List.mem_cons, ih]
      tauto

theorem mem_sortByRussian (x : Plant) (l : List Plant) :
    x ∈ sortByRussian l ↔ x ∈ l := by
  induction l with
  | nil => simp [sortByRussian]
  | cons p ps ih =>
    simp [sortByRussian, mem_insertByName, ih]

theorem likeAux_pct (n : Nat) : ∀ s : List Char, s.length < n → likeAux n ['%'] s = true := by
  induction n with
  | zero => intro s h; exact absurd h (Nat.not_lt_zero _)
  | succ m ih =>
    intro s h
    cases s with
    | nil => simp [likeAux]
    | cons d tl =>
      have h2 : tl.length < m := by
        simp only [List.length_cons] at h
        omega
      simp [likeAux, ih tl h2]

theorem likeAux_lit (n : Nat) : ∀ t s : List Char, noWildL t = true →
    t.length + s.length < n → likeAux n (t ++ ['%']) s = ciStarts t s := by
  induction n with
  | zero => intro t s _ h; exact absurd h (Nat.not_lt_zero _)
  | succ m ih =>
    intro t s hw h
    cases t with
    | nil =>
      rw [List.nil_append, likeAux_pct (m + 1) s (by simpa using h)]
      cases s with
      | nil => simp [ciStarts]
      | cons d tl => simp [ciStarts]
    | cons c t2 =>
      have hw2 : noWildChar c = true ∧ noWildL t2 = true := by
        simpa [noWildL, List.all_cons, Bool.and_eq_true] using hw
      have hcp : ¬ c = '%' := by
        intro hcc
        rw [hcc] at hw2
        simp [noWildChar] at hw2
      have hcu : ¬ c = '_' := by
        intro hcc
        rw [hcc] at hw2
        simp [noWildChar] at hw2
      cases s with
      | nil => simp [likeAux, hcp, ciStarts]
      | cons d tl =>
        have h2 : t2.length + tl.length < m := by
          simp only [List.length_cons] at h
          omega
        by_cases he : asciiLower c = asciiLower d
        · simp [likeAux, hcp, hcu, he, ciStarts, ih t2 tl hw2.2 h2]
        · simp [likeAux, hcp, hcu, he, ciStarts]

theorem likeAux_wrap (n : Nat) : ∀ t s : List Char, noWildL t = true →
    t.length + s.length + 1 < n →
    likeAux n ('%' :: (t ++ ['%'])) s = ciSub t s := by
  induction n with
  | zero => intro t s _ h; exact absurd h (Nat.not_lt_zero _)
  | succ m ih =>
    intro t s hw h
    cases s with
    | nil =>
      have hb : t.length + List.length ([] : List Char) < m := by
        simp only [List.length_nil] at h ⊢
        omega
      simp only [likeAux, if_pos rfl, likeAux_lit m t [] hw hb, Bool.or_false]
      cases t with
      | nil => simp [ciStarts, ciSub]
      | cons c t2 => simp [ciStarts, ciSub]
    | cons d tl =>
      have hb1 : t.length + (d :: tl).length < m := by
        simp only [List.length_cons] at h ⊢
        omega
      have hb2 : t.length + tl.length + 1 < m := by
        simp only [List.length_cons] at h
        omega
      simp only [likeAux, if_pos rfl, likeAux_lit m t (d :: tl) hw hb1, ih t tl hw hb2]
      simp [ciSub]

/-- For a wildcard-free term, LIKE with the %term% wrapping is exactly
ASCII-case-insensitive substring containment. -/
theorem likeMatch_of_noWild (term : String) (s : List Char)
    (hw : noWildL term.data = true) :
    likeMatch (searchPattern term) s = ciSub term.data s := by
  have hb : term.data.length + s.length + 1 <
      (searchPattern term).length + s.length + 1 := by
    simp only [searchPattern, List.length_cons, List.length_append,
      List.length_singleton]
    omega
  exact likeAux_wrap ((searchPattern term).length + s.length + 1) term.data s hw hb

theorem ciSub_nil (s : List Char) : ciSub [] s = true := by
  cases s with
  | nil => rfl
  | cons d tl => simp [ciSub, ciStarts]

theorem mdAfterBracket_mem : ∀ (s : List Char) (lu : List Char × List Char),
    mdAfterBracket s = some lu → ']' ∈ s := by
  intro s
  induction s with
  | nil => intro lu h; simp [mdAfterBracket] at h
  | cons c rest ih =>
    intro lu h
    by_cases hc : c = ']'
    · exact hc ▸ List.mem_cons_self c rest
    · by_cases hn : c = Char.ofNat 10
      · rw [mdAfterBracket.eq_def] at h
        simp only [if_neg hc, if_pos hn] at h
        exact Option.noConfusion h
      · rw [mdAfterBracket.eq_def] at h
        simp only [if_neg hc, if_neg hn] at h
        rcases Option.map_eq_some'.mp h with ⟨lu2, h2, _⟩
        exact List.mem_cons_of_mem c (ih lu2 h2)

theorem mdSearch_brackets : ∀ (s : List Char) (lu : List Char × List Char),
    mdSearch s = some lu → '[' ∈ s ∧ ']' ∈ s := by
  intro s
  induction s with
  | nil => intro lu h; simp [mdSearch] at h
  | cons c rest ih =>
    intro lu h
    by_cases hc : c = '['
    · subst hc
      rw [mdSearch.eq_def] at h
      simp only [if_pos rfl] at h
      refine ⟨List.mem_cons_self _ _, ?_⟩
      cases hab : mdAfterBracket rest with
      | some lu2 =>
        exact List.mem_cons_of_mem _ (mdAfterBracket_mem rest lu2 hab)
      | none =>
        rw [hab] at h
        rcases ih lu h with ⟨_, h2⟩
        exact List.mem_cons_of_mem _ h2
    · rw [mdSearch.eq_def] at h
      simp only [if_neg hc] at h
      rcases ih lu h with ⟨h1, h2⟩
      exact ⟨List.mem_cons_of_mem _ h1, List.mem_cons_of_mem _ h2⟩

theorem anyName (l : List Plant) (n : String) :
    l.any (fun p => decide (p.russian_name = some n)) =
    (l.filterMap Plant.russian_name).any (fun m => decide (m = n)) := by
  induction l with
  | nil => rfl
  | cons p tl ih =>
    cases hp : p.russian_name with
    | none => simp [List.any_cons, List.filterMap_cons, hp, ih]
    | some m => simp [List.any_cons, List.filterMap_cons, hp, ih]

theorem bulkRows_abstract : ∀ (rows : List Row) (db : DB),
    (bulkRows true db rows).2 =
    dedupCounts (db.rows.filterMap Plant.russian_name) rows := by
  intro rows
  induction rows with
  | nil => intro db; rfl
  | cons row rest ih =>
    intro db
    have hins : ((dbInsert db (rowPlant row)).rows.filterMap Plant.russian_name) =
        db.rows.filterMap Plant.russian_name ++
          (match rowLookup row "russian_name" with
           | some n => [n]
           | none => []) := by
      cases hn : rowLookup row "russian_name" with
      | none => simp [dbInsert, List.filterMap_append, rowPlant, hn]
      | some n => simp [dbInsert, List.filterMap_append, rowPlant, hn]
    cases hn : rowLookup row "russian_name" with
    | none =>
      rw [hn] at hins
      have h2 : (bulkRows true (dbInsert db (rowPlant row)) rest).2 =
          dedupCounts (db.rows.filterMap Plant.russian_name) rest := by
        rw [ih, hins]
        simp
      have hhit : dedupHit db (rowLookup row "russian_name") = false := by
        rw [hn]
        rfl
      rw [bulkRows, hhit, dedupCounts.eq_def]
      simp only [hn]
      simp [h2]
    | some n =>
      rw [hn] at hins
      have hhit : dedupHit db (rowLookup row "russian_name") =
          (db.rows.filterMap Plant.russian_name).any (fun m => decide (m = n)) := by
        rw [hn]
        exact anyName db.rows n
      by_cases hmem :
          ((db.rows.filterMap Plant.russian_name).any (fun m => decide (m = n))) = true
      · have h2 : (bulkRows true db rest).2 =
            dedupCounts (db.rows.filterMap Plant.russian_name) rest := ih db
        rw [bulkRows, hhit, hmem, dedupCounts.eq_def]
        simp only [hn, hmem]
        simp [h2]
      · have hmf : ((db.rows.filterMap Plant.russian_name).any
            (fun m => decide (m = n))) = false := by
          simpa using hmem
        have h2 : (bulkRows true (dbInsert db (rowPlant row)) rest).2 =
            dedupCounts (db.rows.filterMap Plant.russian_name ++ [n]) rest := by
          rw [ih, hins]
        rw [bulkRows, hhit, hmf, dedupCounts.eq_def]
        simp only [hn, hmf]
        simp [h2]

theorem map_update_absent (l : List Plant) (id : Nat) (u : UpdateData)
    (h : l.all (fun p => ! decide (p.id = id)) = true) :
    l.map (fun p => if p.id = id then applyUpdate u p else p) = l := by
  induction l with
  | nil => rfl
  | cons p tl ih =>
    simp only [List.all_cons, Bool.and_eq_true, Bool.not_eq_true',
      decide_eq_false_iff_not] at h
    simp [List.map_cons, h.1, ih (by simpa using h.2)]

theorem any_filter_not (l : List Plant) (id : Nat) :
    (l.filter (fun p => ! decide (p.id = id))).any
      (fun p => decide (p.id = id)) = false := by
  induction l with
  | nil => rfl
  | cons p tl ih =>
    by_cases h : p.id = id
    · simp [List.filter_cons, h, ih]
    · simp [List.filter_cons, h, ih]

theorem mapFst_filter (l : List (String × Option String)) :
    (l.filter (fun kv => whitelist.contains kv.1)).map Prod.fst =
    (l.map Prod.fst).filter (fun c => whitelist.contains c) := by
  induction l with
  | nil => rfl
  | cons kv tl ih =>
    by_cases h : kv.1 ∈ whitelist
    · simp only [List.filter_cons]
      simp [h]
      simpa using ih
    · simp only [List.filter_cons]
      simp [h]
      simpa using ih

theorem filter_contains_idem (l : List String) :
    (l.filter (fun c => whitelist.contains c)).filter
      (fun c => whitelist.contains c) =
    l.filter (fun c => whitelist.contains c) := by
  induction l with
  | nil => rfl
  | cons c tl ih =>
    by_cases h : c ∈ whitelist
    · simp [List.filter_cons, h, ih]
    · simp [List.filter_cons, h, ih]

theorem noEmptyVal_emptyToNull (s : String) :
    noEmptyVal (some (emptyToNull s)) = true := by
  by_cases h : s = ""
  · simp [emptyToNull, h, noEmptyVal]
  · simp [emptyToNull, h, noEmptyVal]

/-- C1 counterexample: with a non-empty valid field mapping and the id 2
absent from the store, update_plant leaves the store unchanged but returns
true, while the claim demands a false return. -/
theorem c1_update_missing_id_counterexample :
    dbRoza.rows.all (fun p => ! decide (p.id = 2)) = true ∧
    updGroupOnly.nonEmpty = true ∧
    update_plant dbRoza 2 updGroupOnly = (true, dbRoza) := by
  decide

/-- C1 (amended): for every id that does not identify a stored record and
every non-empty valid field mapping, update_plant leaves the store unchanged
but reports success (returns true) — the zero affected rows are not surfaced
to the caller; false is returned only when the SQL itself fails, e.g. on an
empty mapping. -/
theorem c1_update_missing_id_amended (db : DB) (id : Nat) (u : UpdateData)
    (hne : u.nonEmpty = true)
    (habs : db.rows.all (fun p => ! decide (p.id = id)) = true) :
    update_plant db id u = (true, db) := by
  rw [update_plant, if_pos hne, map_update_absent db.rows id u habs]

/-- Closed instance of the amended C1 theorem. -/
theorem c1_update_missing_id_amended_witness :
    update_plant dbRoza 2 updGroupOnly = (true, dbRoza) :=
  c1_update_missing_id_amended dbRoza 2 updGroupOnly (by decide) (by decide)

/-- C2 counterexample: submitting the add form with an empty latin name on an
empty store persists the record with latin_name equal to the empty string,
not NULL, so the insert path does not normalize empty strings to absent. -/
theorem c2_empty_string_insert_counterexample :
    (addFormSubmit emptyDB addInputEmptyLatin).map
      (fun db => db.rows.map Plant.latin_name) = some [some ""] := by
  decide

/-- C2 (amended): empty-string inputs are normalized to NULL on the update
(edit-form) path — the mapping it builds never carries an empty-string value
— but not on the manual add path, which persists every optional text field
exactly as entered, empty strings included; on the add path only a
nonpositive cost and a missing date become NULL. -/
theorem c2_empty_string_normalization_amended :
    (∀ i : EditFormInput, (editFormUpdateData i).noEmptyStrings = true) ∧
    (∀ (db : DB) (i : AddFormInput), ¬ i.russian_name = "" →
      addFormSubmit db i = some
        { rows := db.rows ++
            [{ id := db.seq
               group_name := some i.group_name
               russian_name := some i.russian_name
               russian_name_url := none
               latin_name := some i.latin_name
               latin_name_url := none
               acquisition_date := i.acquisition_date
               acquisition_place := some i.acquisition_place
               supplier := some i.supplier
               cost := if 0 < i.cost then some i.cost else none
               location := some i.location
               pot := some i.pot
               condition := some i.condition }]
          seq := db.seq + 1 }) := by
  constructor
  · intro i
    simp [editFormUpdateData, UpdateData.noEmptyStrings, noEmptyVal_emptyToNull]
  · intro db i h
    simp [addFormSubmit, h, add_plant, dbInsert, plantOfData]

/-- Closed instance of the amended C2 theorem. -/
theorem c2_empty_string_normalization_amended_witness :
    (editFormUpdateData editInput1).noEmptyStrings = true ∧
    addFormSubmit emptyDB addInputEmptyLatin = some addResult1 := by
  refine ⟨c2_empty_string_normalization_amended.1 editInput1, ?_⟩
  rw [c2_empty_string_normalization_amended.2 emptyDB addInputEmptyLatin (by decide)]
  decide

theorem optLike_ci (term : String) (o : Option String)
    (hw : noWildL term.data = true) :
    optLike (searchPattern term) o = ciContainsOpt term o := by
  cases o with
  | none => rfl
  | some s => exact likeMatch_of_noWild term s.data hw

/-- C3 counterexample: the LIKE-based search is not case-insensitive beyond
ASCII — the record named Агава is not found by the lower-case term агава
although the term is contained case-insensitively in the name; a term that
consists of a LIKE wildcard matches records that do not contain it as a
substring; and the empty term does not match a record whose two name columns
are NULL. -/
theorem c3_search_case_counterexample :
    specCiContains "Агава" "агава" = true ∧
    search_plants dbAgava "агава" = [] ∧
    specCiContains "Роза" "%" = false ∧
    search_plants dbRoza "%" = [plantRoza] ∧
    search_plants dbNoName "" = [] := by
  decide

/-- C3 (amended): for every store and every wildcard-free search term,
Search(term) returns exactly the records whose russian_name or latin_name
contains the term as an ASCII-case-insensitive substring — characters beyond
ASCII, such as Cyrillic, compare case-sensitively; terms containing % or _
are interpreted as LIKE wildcards instead; and the empty term matches every
record whose russian_name is non-NULL. -/
theorem c3_search_amended :
    ∀ (db : DB) (term : String) (p : Plant),
      (noWildL term.data = true →
        (p ∈ search_plants db term ↔
          p ∈ db.rows ∧
            (ciContainsOpt term p.russian_name ||
             ciContainsOpt term p.latin_name) = true)) ∧
      (p ∈ db.rows → p.russian_name.isSome = true → p ∈ search_plants db "") := by
  intro db term p
  constructor
  · intro hw
    simp only [search_plants, mem_sortByRussian, List.mem_filter]
    rw [optLike_ci term p.russian_name hw, optLike_ci term p.latin_name hw]
  · intro hm hs
    simp only [search_plants, mem_sortByRussian, List.mem_filter]
    refine ⟨hm, ?_⟩
    cases hr : p.russian_name with
    | none => rw [hr] at hs; exact absurd hs (by simp)
    | some s =>
      have h1 : optLike (searchPattern "") p.russian_name = true := by
        rw [hr]
        show likeMatch (searchPattern "") s.data = true
        rw [likeMatch_of_noWild "" s.data (by decide)]
        exact ciSub_nil s.data
      rw [hr] at h1
      simp [h1]

/-- Closed instance of the amended C3 theorem. -/
theorem c3_search_amended_witness :
    (plantRoza ∈ search_plants dbRoza "оза" ↔
      plantRoza ∈ dbRoza.rows ∧
        (ciContainsOpt "оза" plantRoza.russian_name ||
         ciContainsOpt "оза" plantRoza.latin_name) = true) ∧
    plantRoza ∈ search_plants dbRoza "" := by
  refine ⟨(c3_search_amended dbRoza "оза" plantRoza).1 (by decide), ?_⟩
  exact (c3_search_amended dbRoza "" plantRoza).2 (by decide) (by decide)

/-- C4 counterexample: on the header-driven pathway a cell holding the
markdown text with no native hyperlink passes through unsplit (the claim
demands text Rose and the url), and on the fixed-column pathway a native
hyperlink with an empty target does not take precedence — the markdown
fallback overrides both text and url. -/
theorem c4_hyperlink_precedence_counterexample :
    headerResolve (some "[Rose](http://x)") none =
      (some "[Rose](http://x)", none) ∧
    resolveLinkable (some "[Rose](http://x)") (some "") =
      (some "Rose", some "http://x") := by
  decide

/-- C4 (amended): on the fixed-column pathway the stated precedence holds
with the native-hyperlink case read as a native hyperlink with a non-empty
target: such a link yields the target as url and the literal value as text;
otherwise a string value whose first (non-greedy) markdown occurrence parses
yields that label and url; otherwise the raw value passes through with the
hyperlink-derived url.  The header-driven pathway performs no markdown
parsing: its text is always the literal cell value and its url is the native
target exactly when one is attached and non-empty. -/
theorem c4_hyperlink_precedence_amended :
    (∀ (v : Option String) (u : String), ¬ u = "" →
      resolveLinkable v (some u) = (v, some u)) ∧
    (∀ (s : String) (h : Option String) (lu : List Char × List Char),
      optFalsy h = true → mdSearch s.data = some lu →
      resolveLinkable (some s) h =
        (some (String.mk lu.1), some (String.mk lu.2))) ∧
    (∀ (s : String) (h : Option String),
      optFalsy h = true → mdSearch s.data = none →
      resolveLinkable (some s) h = (some s, h)) ∧
    (∀ (v h : Option String), (headerResolve v h).1 = v) ∧
    (∀ (v : Option String) (u : String), ¬ u = "" →
      headerResolve v (some u) = (v, some u)) ∧
    (∀ (v h : Option String), optFalsy h = true →
      headerResolve v h = (v, none)) := by
  refine ⟨?_, ?_, ?_, ?_, ?_, ?_⟩
  · intro v u hu
    cases v with
    | none => rfl
    | some s =>
      have hf : optFalsy (some u) = false := by simp [optFalsy, hu]
      simp [resolveLinkable, hf]
  · intro s h lu hf hmd
    have hbr := mdSearch_brackets s.data lu hmd
    have hne : ¬ s = "" := by
      intro he
      rw [he] at hbr
      exact absurd hbr.1 (by simp)
    simp [resolveLinkable, hf, hne, hbr.1, hbr.2, hmd]
  · intro s h hf hmd
    by_cases hg : (optFalsy h && (! decide (s = "")) &&
        decide ('[' ∈ s.data) && decide (']' ∈ s.data)) = true
    · simp only [resolveLinkable]
      rw [if_pos hg, hmd]
    · have hgf : (optFalsy h && (! decide (s = "")) &&
          decide ('[' ∈ s.data) && decide (']' ∈ s.data)) = false := by
        simpa using hg
      simp only [resolveLinkable]
      rw [if_neg (by simp [hgf])]
  · intro v h
    rfl
  · intro v u hu
    simp [headerResolve, optTruthy, optFalsy, hu]
  · intro v h hf
    simp [headerResolve, optTruthy, hf]

/-- Closed instance of the amended C4 theorem. -/
theorem c4_hyperlink_precedence_amended_witness :
    resolveLinkable (some "Т") (some "http://u") = (some "Т", some "http://u") ∧
    resolveLinkable (some "[Rose](http://x)") none =
      (some "Rose", some "http://x") ∧
    resolveLinkable (some "Plain") none = (some "Plain", none) ∧
    (headerResolve (some "Т") (some "http://u")).1 = some "Т" ∧
    headerResolve (some "Т") (some "http://u") = (some "Т", some "http://u") ∧
    headerResolve (some "[Rose](http://x)") none =
      (some "[Rose](http://x)", none) := by
  refine ⟨c4_hyperlink_precedence_amended.1 (some "Т") "http://u" (by decide),
    ?_,
    c4_hyperlink_precedence_amended.2.2.1 "Plain" none (by decide) (by decide),
    c4_hyperlink_precedence_amended.2.2.2.1 (some "Т") (some "http://u"),
    c4_hyperlink_precedence_amended.2.2.2.2.1 (some "Т") "http://u" (by decide),
    c4_hyperlink_precedence_amended.2.2.2.2.2 (some "[Rose](http://x)") none
      (by decide)⟩
  exact c4_hyperlink_precedence_amended.2.1 "[Rose](http://x)" none
    ("Rose".data, "http://x".data) (by decide) (by decide)

/-- C5: the filter query.  With no active predicate the query returns
exactly the rows of the store, the same set ListAll returns; with at least
one bound parameter the result is exactly the records satisfying the
conjunction of the active predicates, evaluated with SQL NULL semantics; and
the assembled SQL text depends only on which predicates are active, never on
their values, which travel exclusively in the parameter list. -/
theorem c5_filter_query_conjunction :
    ∀ (db : DB) (f : FilterInput),
      ((groupActive f = false ∧ dateActive f = false ∧
        supplierActive f = false ∧ condActive f = false ∧
        minActive f = false ∧ maxActive f = false) →
        (filter_query db f = db.rows ∧
          ∀ p : Plant, p ∈ filter_query db f ↔ p ∈ get_all_plants db)) ∧
      (0 < (filterParams f).length →
        ∀ p : Plant,
          p ∈ filter_query db f ↔ p ∈ db.rows ∧ rowPasses f p = true) ∧
      (∀ g : FilterInput, groupActive f = groupActive g →
        dateActive f = dateActive g → supplierActive f = supplierActive g →
        condActive f = condActive g → minActive f = minActive g →
        maxActive f = maxActive g → filterSql f = filterSql g) := by
  intro db f
  refine ⟨?_, ?_, ?_⟩
  · rintro ⟨h1, h2, h3, h4, h5, h6⟩
    have hparams : filterParams f = [] := by
      cases hd : f.dateRange with
      | some ab => rw [dateActive, hd] at h2; exact absurd h2 (by simp)
      | none => simp [filterParams, h1, h3, h4, h5, h6, hd]
    have hq : filter_query db f = db.rows := by
      rw [filter_query, hparams]
      simp
    refine ⟨hq, ?_⟩
    intro p
    rw [hq, get_all_plants, mem_sortByRussian]
  · intro hp p
    rw [filter_query, if_pos hp]
    exact List.mem_filter
  · intro g e1 e2 e3 e4 e5 e6
    simp only [filterSql, e1, e2, e3, e4, e5, e6]

/-- Closed instance of the C5 theorem. -/
theorem c5_filter_query_conjunction_witness :
    filter_query dbRoza filterInactive = dbRoza.rows ∧
    (plantRoza ∈ filter_query dbRoza filterInactive ↔
      plantRoza ∈ get_all_plants dbRoza) ∧
    (plantRoza ∈ filter_query dbRoza
        { filterInactive with minPrice := 5 } ↔
      plantRoza ∈ dbRoza.rows ∧
        rowPasses { filterInactive with minPrice := 5 } plantRoza = true) ∧
    filterSql filterInactive = filterSql filterInactive2 := by
  refine ⟨((c5_filter_query_conjunction dbRoza filterInactive).1 (by decide)).1,
    ((c5_filter_query_conjunction dbRoza filterInactive).1 (by decide)).2 plantRoza,
    (c5_filter_query_conjunction dbRoza
      { filterInactive with minPrice := 5 }).2.1 (by decide) plantRoza,
    (c5_filter_query_conjunction dbRoza filterInactive).2.2 filterInactive2
      (by decide) (by decide) (by decide) (by decide) (by decide) (by decide)⟩

/-- C6: with deduplication on, a row of the batch is skipped exactly when
its russian_name is present in the store as it stands when that row is
processed — rows inserted earlier in the same batch count, which the
abstraction to the running list of stored names expresses; and the concrete
scenario of two batch rows sharing the name of an existing record yields
imported 0 and skipped 2 with the store unchanged. -/
theorem c6_dedup_row_by_row :
    (∀ (rows : List Row) (db : DB),
      (bulkRows true db rows).2 =
      dedupCounts (db.rows.filterMap Plant.russian_name) rows) ∧
    (bulk_import dbRoza importRozaTwice ImportMode.append true).report =
      Except.ok (0, 2) ∧
    (bulk_import dbRoza importRozaTwice ImportMode.append true).db = dbRoza := by
  refine ⟨bulkRows_abstract, ?_, ?_⟩
  · rfl
  · rfl

/-- C7: delete_plant returns exactly whether a record with the id was
present, removes precisely the rows carrying that id when it was, leaves the
store unchanged when it was not, and a second delete of the same id on the
resulting store always returns false. -/
theorem c7_delete_returns_presence :
    ∀ (db : DB) (id : Nat),
      (delete_plant db id).1 = db.rows.any (fun p => decide (p.id = id)) ∧
      (delete_plant db id).2.rows =
        (if db.rows.any (fun p => decide (p.id = id)) = true then
          db.rows.filter (fun p => ! decide (p.id = id))
        else db.rows) ∧
      (delete_plant (delete_plant db id).2 id).1 = false := by
  intro db id
  by_cases h : db.rows.any (fun p => decide (p.id = id)) = true
  · refine ⟨?_, ?_, ?_⟩
    · simp [delete_plant, h]
    · simp [delete_plant, h]
    · simp [delete_plant, h, any_filter_not]
  · have hf : db.rows.any (fun p => decide (p.id = id)) = false := by
      simpa using h
    refine ⟨?_, ?_, ?_⟩
    · simp [delete_plant, hf]
    · simp [delete_plant, hf]
    · simp [delete_plant, hf]

theorem all_filter_self (l : List String) (p : String → Bool) :
    (l.filter p).all p = true := by
  induction l with
  | nil => rfl
  | cons c tl ih =>
    by_cases h : p c = true
    · simp [List.filter_cons, h, ih]
    · simp [List.filter_cons, h, ih]

/-- C8: when a required column is missing, the import reports the named
error listing the missing column names and the store is returned unchanged —
nothing is imported and nothing is deleted, in replace mode included, since
the check runs before any write. -/
theorem c8_missing_columns_no_write :
    ∀ (db : DB) (data : ImportData) (mode : ImportMode) (dedup : Bool),
      ¬ missingColumns data = [] →
      (bulk_import db data mode dedup).db = db ∧
      (bulk_import db data mode dedup).report =
        Except.error (missingColumns data) := by
  intro db data mode dedup h
  have he : (missingColumns data).isEmpty = false := by
    cases hm : missingColumns data with
    | nil => exact absurd hm h
    | cons a tl => rfl
  constructor
  · simp [bulk_import, he]
  · simp [bulk_import, he]

/-- Closed instance of the C8 theorem. -/
theorem c8_missing_columns_no_write_witness :
    (bulk_import dbRoza importNoRussian ImportMode.replaceAll true).db = dbRoza ∧
    (bulk_import dbRoza importNoRussian ImportMode.replaceAll true).report =
      Except.error ["russian_name"] := by
  have h := c8_missing_columns_no_write dbRoza importNoRussian
    ImportMode.replaceAll true (by decide)
  exact ⟨h.1, h.2⟩

/-- C9: the INSERT built for an imported row names only whitelisted columns
— every column of the statement is on the fixed twelve-name whitelist, and
the SQL text is unchanged when all non-whitelisted keys are dropped from the
row, so a foreign column name never reaches the statement. -/
theorem c9_import_column_whitelist :
    ∀ row : Row,
      (rowColumns row).all (fun c => whitelist.contains c) = true ∧
      insertSql row =
        insertSql (row.filter (fun kv => whitelist.contains kv.1)) := by
  intro row
  constructor
  · rw [rowColumns]
    exact all_filter_self (row.map Prod.fst) (fun c => whitelist.contains c)
  · have hc : rowColumns (row.filter (fun kv => whitelist.contains kv.1)) =
        rowColumns row := by
      rw [rowColumns, rowColumns, mapFst_filter, filter_contains_idem]
    rw [insertSql, insertSql, hc]

/-- C10: a record created through the manual add path always stores NULL in
both URL columns — the INSERT omits them — while the entered russian_name is
kept; the row is appended and the sequence advances. -/
theorem c10_manual_add_urls_null :
    ∀ (db : DB) (d : PlantData),
      ∃ p : Plant,
        (add_plant db d).rows = db.rows ++ [p] ∧
        (add_plant db d).seq = db.seq + 1 ∧
        p.russian_name_url = none ∧
        p.latin_name_url = none ∧
        p.russian_name = d.russian_name := by
  intro db d
  exact ⟨{ plantOfData d with id := db.seq }, rfl, rfl, rfl, rfl, rfl⟩
